import Mathlib

/-!
Verification development for the langchainplus SDK run-tree core:
the run-tree data structure (`run_trees.py`), the background submission
singleton, the `run_tree` decorator (`run_helpers.py`), and the generic
JSON serializer. Python objects are embedded shallowly: object identity
becomes an explicit store keyed by `Nat`, timestamps become `Nat`,
Python dicts become association lists, and exceptions become `Except`.
-/

/-- JSON-safe output values produced by the generic serializer. -/
inductive Json where
  | null : Json
  | bool (b : Bool) : Json
  | num (n : Int) : Json
  | str (s : String) : Json
  | arr (xs : List Json) : Json
  | obj (fields : List (String × Json)) : Json
deriving Repr

/-- Runtime shapes of Python values, tagged by the serializer strategy that
matches them (JSON primitives and containers, datetimes, enums, UUIDs,
pydantic models, dataclasses, dataclass-json records, slotted objects,
plain attribute-dict objects, named tuples, and a string-repr fallback). -/
inductive PyVal where
  | vnull : PyVal
  | vbool (b : Bool) : PyVal
  | vnum (n : Int) : PyVal
  | vstr (s : String) : PyVal
  | vlist (xs : List PyVal) : PyVal
  | vdict (fields : List (String × PyVal)) : PyVal
  | vdatetime (iso8601 : String) : PyVal
  | venum (value : PyVal) : PyVal
  | vuuid (canonical : String) : PyVal
  | vmodel (fields : List (String × PyVal)) : PyVal
  | vdataclass (fields : List (String × PyVal)) : PyVal
  | vserializable (fields : List (String × PyVal)) : PyVal
  | vslots (fields : List (String × PyVal)) : PyVal
  | vobjdict (fields : List (String × PyVal)) : PyVal
  | vnamedtuple (fields : List (String × PyVal)) : PyVal
  | vfallback (reprStr : String) : PyVal
deriving Repr

mutual

/-- Modelled from the spec: the generic serializer (`_serialize_json` of the
client module, which is not among the source files; only its unit test is).
Follows the spec's priority-ordered strategies: primitives and containers
pass through (recursively converted), date/times become ISO-8601 strings,
enums become their underlying value, UUIDs their canonical string, model /
dataclass / dataclass-json / slotted / attribute-dict records become
mappings of their converted fields, named tuples become the ordered
sequence of their converted field values (names discarded), and anything
else falls back to its string representation. -/
def _serialize_json : PyVal → Json
  | .vnull => .null
  | .vbool b => .bool b
  | .vnum n => .num n
  | .vstr s => .str s
  | .vlist xs => .arr (serializeList xs)
  | .vdict fields => .obj (serializeFields fields)
  | .vdatetime iso8601 => .str iso8601
  | .venum value => _serialize_json value
  | .vuuid canonical => .str canonical
  | .vmodel fields => .obj (serializeFields fields)
  | .vdataclass fields => .obj (serializeFields fields)
  | .vserializable fields => .obj (serializeFields fields)
  | .vslots fields => .obj (serializeFields fields)
  | .vobjdict fields => .obj (serializeFields fields)
  | .vnamedtuple fields => .arr (serializeFieldValues fields)
  | .vfallback reprStr => .str reprStr

/-- Recursively serialize the elements of a sequence. -/
def serializeList : List PyVal → List Json
  | [] => []
  | x :: xs => _serialize_json x :: serializeList xs

/-- Recursively serialize the values of a string-keyed mapping. -/
def serializeFields : List (String × PyVal) → List (String × Json)
  | [] => []
  | (k, v) :: rest => (k, _serialize_json v) :: serializeFields rest

/-- Recursively serialize the field values of a named tuple, dropping names. -/
def serializeFieldValues : List (String × PyVal) → List Json
  | [] => []
  | (_, v) :: rest => _serialize_json v :: serializeFieldValues rest

end

/-- Python dicts with string keys, as association lists (insertion order
preserved, keys unique in every dict the code builds). -/
abbrev Dict := List (String × PyVal)

/-- Lookup in an association list: the first binding of the key, as a Python
dict read. -/
def alookup {α β : Type} [DecidableEq α] (i : α) : List (α × β) → Option β
  | [] => none
  | (k, v) :: rest => if k = i then some v else alookup i rest

/-- Replace every binding of a key in an association list (a Python in-place
attribute update on the object stored under that key). -/
def aset {α β : Type} [DecidableEq α] (i : α) (b : β) : List (α × β) → List (α × β)
  | [] => []
  | (k, v) :: rest => if k = i then (k, b) :: aset i b rest else (k, v) :: aset i b rest

theorem alookup_aset_self {α β : Type} [DecidableEq α] (i : α) (b : β) :
    ∀ l : List (α × β), alookup i (aset i b l) = (alookup i l).map (fun _ => b) := by
  intro l
  induction l with
  | nil => rfl
  | cons hd tl ih =>
    by_cases h : hd.1 = i
    · simp [aset, alookup, h, ih]
    · simp [aset, alookup, h, ih]

theorem alookup_aset_ne {α β : Type} [DecidableEq α] (i j : α) (b : β) (hne : j ≠ i) :
    ∀ l : List (α × β), alookup j (aset i b l) = alookup j l := by
  intro l
  induction l with
  | nil => rfl
  | cons hd tl ih =>
    obtain ⟨k, v⟩ := hd
    by_cases h : k = i
    · subst h
      have hkj : k ≠ j := fun hc => hne hc.symm
      simp [aset, alookup, hkj, ih]
    · by_cases h2 : k = j
      · subst h2
        simp [aset, alookup, h]
      · simp [aset, alookup, h, h2, ih]

theorem aset_keys {α β : Type} [DecidableEq α] (i : α) (b : β) :
    ∀ l : List (α × β), (aset i b l).map Prod.fst = l.map Prod.fst := by
  intro l
  induction l with
  | nil => rfl
  | cons hd tl ih =>
    by_cases h : hd.1 = i
    · simp [aset, h, ih]
    · simp [aset, h, ih]

/-- Key of a Python object in the explicit object store (object identity;
distinct from the run's `id` field, which models its UUID). -/
abbrev NodeId := Nat

/-- The fields of a `RunTree` pydantic object (run_trees.py). Timestamps are
`Nat`, UUIDs are `Nat`, dicts are `Dict`. `parentRun` and `childRuns` hold
store keys (object references); the `client` field is an external
collaborator and carries no state relevant to the core, so it is omitted. -/
structure RunTreeNode where
  name : String
  id : Nat
  parentRun : Option NodeId := none
  childRuns : List NodeId := []
  sessionName : String := "default"
  sessionId : Option Nat := none
  executionOrder : Nat := 1
  childExecutionOrder : Nat := 1
  serialized : Dict := []
  inputs : Dict := []
  outputs : Option Dict := none
  error : Option String := none
  runType : String := "chain"
  referenceExampleId : Option Nat := none
  startTime : Nat := 0
  endTime : Option Nat := none
  extra : Dict := []
deriving Repr

/-- The heap of live `RunTree` objects: an association list from object
identity to object state, plus a counter supplying fresh identities
(and fresh generated UUIDs). -/
structure Store where
  nodes : List (NodeId × RunTreeNode)
  nextId : NodeId
deriving Repr

/-- Dereference an object key. -/
def Store.get (s : Store) (i : NodeId) : Option RunTreeNode :=
  alookup i s.nodes

/-- In-place mutation of the object stored under a key. -/
def Store.set (s : Store) (i : NodeId) (n : RunTreeNode) : Store :=
  { s with nodes := aset i n s.nodes }

/-- Store well-formedness: every live key is below the freshness counter. -/
def Store.WF (s : Store) : Prop :=
  ∀ k ∈ s.nodes.map Prod.fst, k < s.nextId

/-- The optional keyword arguments of `RunTree.create_child`. -/
structure ChildArgs where
  name : String
  runType : String
  runId : Option Nat := none
  serialized : Option Dict := none
  inputs : Option Dict := none
  outputs : Option Dict := none
  error : Option String := none
  referenceExampleId : Option Nat := none
  startTime : Option Nat := none
  endTime : Option Nat := none
  extra : Option Dict := none

/-- Python truthiness-based defaulting `x or d` for an optional dict whose
default is a non-empty literal: `None` and the empty dict are falsy. -/
def orDict (x : Option Dict) (d : Dict) : Dict :=
  match x with
  | none => d
  | some v => if v.isEmpty then d else v

/-- The child object built by `RunTree.create_child` (run_trees.py lines
96-115) from parent `p`, reading the parent's `child_execution_order`,
session name, and the given keyword arguments; `key` doubles as the fresh
UUID for `run_id or uuid4()` and `now` is `datetime.utcnow()`. Note the
source initializes `end_time` to `end_time or datetime.utcnow()`. -/
def childNode (p : RunTreeNode) (pid : NodeId) (a : ChildArgs) (key : NodeId) (now : Nat) :
    RunTreeNode :=
  { name := a.name
    id := a.runId.getD key
    serialized := orDict a.serialized [("name", PyVal.vstr a.name)]
    inputs := a.inputs.getD []
    outputs := some (a.outputs.getD [])
    error := a.error
    runType := a.runType
    referenceExampleId := a.referenceExampleId
    startTime := a.startTime.getD now
    endTime := some (a.endTime.getD now)
    executionOrder := p.childExecutionOrder + 1
    childExecutionOrder := p.childExecutionOrder + 1
    extra := a.extra.getD []
    parentRun := some pid
    sessionName := p.sessionName }

/-- `RunTree.create_child` (run_trees.py): computes
`execution_order = self.child_execution_order + 1`, builds the child with
that execution order (as both `execution_order` and
`child_execution_order`), appends it to `self.child_runs`, and returns it.
It does not modify `self.child_execution_order`. `none` when the receiver
key is dangling (impossible in the source, where the receiver is a live
object). -/
def RunTree.create_child (s : Store) (pid : NodeId) (a : ChildArgs) (now : Nat) :
    Option (Store × NodeId) :=
  match s.get pid with
  | none => none
  | some p =>
    let key := s.nextId
    let run := childNode p pid a key now
    let s1 := s.set pid { p with childRuns := p.childRuns ++ [key] }
    some ({ nodes := (key, run) :: s1.nodes, nextId := s.nextId + 1 }, key)

/-- The node update performed on `self` by `RunTree.end` (run_trees.py lines
69-73): `end_time = end_time or utcnow()`, and `outputs` / `error` are
assigned only when the corresponding argument is not `None`. -/
def endedNode (n : RunTreeNode) (outputs : Option Dict) (error : Option String)
    (endTime : Option Nat) (now : Nat) : RunTreeNode :=
  { n with
    endTime := some (endTime.getD now)
    outputs := match outputs with | some o => some o | none => n.outputs
    error := match error with | some e => some e | none => n.error }

/-- `RunTree.end` (run_trees.py lines 61-78): updates `self`'s end fields,
then, if `self.parent_run` is set, raises the parent's
`child_execution_order` to `max(parent.child_execution_order,
self.child_execution_order)`. One level only: no further ancestor is
touched. `none` when the receiver key is dangling. -/
def RunTree.endRun (s : Store) (nid : NodeId) (outputs : Option Dict)
    (error : Option String) (endTime : Option Nat) (now : Nat) : Option Store :=
  match s.get nid with
  | none => none
  | some n =>
    let s1 := s.set nid (endedNode n outputs error endTime now)
    match n.parentRun with
    | none => some s1
    | some pid =>
      match s1.get pid with
      | none => some s1
      | some p =>
        some (s1.set pid
          { p with childExecutionOrder := max p.childExecutionOrder n.childExecutionOrder })

/-- State of one `ThreadPoolExecutor(max_workers=1)`: whether `shutdown` has
been called, and how many submitted tasks are still pending. -/
structure PoolState where
  isShutdown : Bool := false
  pending : Nat := 0
deriving Repr, DecidableEq

/-- The module-level state of run_trees.py: the `_THREAD_POOL_EXECUTOR`
global, plus two ghost counters observing the claims (how many executors
were ever constructed, and how many submitted tasks have completed). -/
structure GlobalState where
  pool : Option PoolState := none
  createdCount : Nat := 0
  completedTotal : Nat := 0
deriving Repr, DecidableEq

/-- `_ensure_thread_pool` (run_trees.py lines 19-24), run atomically: if the
global is `None`, construct a single-worker executor and store it; return
the stored executor. There is no lock in the source; this atomic version
models a call that runs without interleaving. -/
def _ensure_thread_pool (g : GlobalState) : GlobalState × PoolState :=
  match g.pool with
  | none =>
    let p : PoolState := {}
    ({ g with pool := some p, createdCount := g.createdCount + 1 }, p)
  | some p => (g, p)

/-- `executor.submit(...)`: enqueues a task on the single worker, or raises
`RuntimeError("cannot schedule new futures after shutdown")` if the
executor was shut down. -/
def poolSubmit (g : GlobalState) (p : PoolState) : Except String GlobalState :=
  if p.isShutdown then .error "cannot schedule new futures after shutdown"
  else .ok { g with pool := some { p with pending := p.pending + 1 } }

/-- `RunTree.post` (run_trees.py lines 119-127), submission side: ensures the
shared executor exists and submits `client.create_run` to it. -/
def RunTree.post (g : GlobalState) : Except String GlobalState :=
  let gp := _ensure_thread_pool g
  poolSubmit gp.1 gp.2

/-- `RunTree.patch` (run_trees.py lines 129-139), submission side: ensures the
shared executor exists and submits `client.update_run` to it. -/
def RunTree.patch (g : GlobalState) : Except String GlobalState :=
  let gp := _ensure_thread_pool g
  poolSubmit gp.1 gp.2

/-- `await_all_runs` (run_trees.py lines 27-32): if the global executor
exists, `shutdown(wait=True)` — which blocks until every pending task has
run to completion — and reset the global to `None`. The ghost
`completedTotal` absorbs the drained tasks. -/
def await_all_runs (g : GlobalState) : GlobalState :=
  match g.pool with
  | none => g
  | some p =>
    { pool := none
      createdCount := g.createdCount
      completedTotal := g.completedTotal + p.pending }

/-- Per-thread progress through the body of `_ensure_thread_pool`: the
`_THREAD_POOL_EXECUTOR is None` test reads the global (`readDone`,
recording the observed answer in `sawNone`); the assignment then runs from
that observation. The source holds no lock between the two. -/
structure EnsureThread where
  readDone : Bool := false
  sawNone : Bool := false
  finished : Bool := false
deriving Repr, DecidableEq

/-- One interleaving step of a thread inside `_ensure_thread_pool`: first the
`is None` test, then — only if the test saw `None` — the construction and
assignment of a new executor. -/
def ensureStep (g : GlobalState) (t : EnsureThread) : GlobalState × EnsureThread :=
  if t.finished then (g, t)
  else if !t.readDone then
    (g, { t with readDone := true, sawNone := g.pool.isNone })
  else if t.sawNone then
    ({ g with pool := some {}, createdCount := g.createdCount + 1 },
     { t with finished := true })
  else (g, { t with finished := true })

/-- Two application threads calling `_ensure_thread_pool` concurrently on the
shared module state. -/
structure RaceState where
  globalState : GlobalState := {}
  t0 : EnsureThread := {}
  t1 : EnsureThread := {}
deriving Repr, DecidableEq

/-- Run one scheduled step: `false` steps thread 0, `true` steps thread 1. -/
def raceStep (s : RaceState) (i : Bool) : RaceState :=
  if i then
    let gt := ensureStep s.globalState s.t1
    { s with globalState := gt.1, t1 := gt.2 }
  else
    let gt := ensureStep s.globalState s.t0
    { s with globalState := gt.1, t0 := gt.2 }

/-- Run a whole schedule of interleaved steps over the two threads. -/
def runRace (s : RaceState) : List Bool → RaceState
  | [] => s
  | i :: rest => runRace (raceStep s i) rest

/-- A binding of `a`, with its value overridden by `b` when `b` also binds
its key. -/
def overrideWith (b : Dict) (q : String × PyVal) : String × PyVal :=
  match alookup q.1 b with
  | some v => (q.1, v)
  | none => q

/-- Whether a binding of `b` has a key that `a` does not bind. -/
def keptFromB (a : Dict) (q : String × PyVal) : Bool :=
  (alookup q.1 a).isNone

/-- Python `{**a, **b}`: keys of `a` in order with values overridden by `b`
where `b` also binds them, followed by the keys only `b` binds, in `b`'s
order. -/
def pyDictMerge (a b : Dict) : Dict :=
  a.map (overrideWith b) ++ b.filter (keptFromB a)

/-- The `extra_inner` computation of the `run_tree` wrapper (run_helpers.py
lines 43-46): when the call-level `extra` is truthy (neither `None` nor
empty), it is `{**extra_outer, **extra}`; otherwise it is `extra_outer`. -/
def runTreeExtraInner (extraOuter : Dict) (extra : Option Dict) : Dict :=
  match extra with
  | some e => if e.isEmpty then extraOuter else pyDictMerge extraOuter e
  | none => extraOuter

/-- Python `x or d` for an optional string with a non-empty default. -/
def pyOrStr (x : Option String) (d : String) : String :=
  match x with
  | none => d
  | some s => if s.isEmpty then d else s

/-- A unit of work handed to the submission channel by the wrapper. -/
inductive SubmitAction where
  | postRun (k : NodeId)
  | patchRun (k : NodeId)
deriving Repr, DecidableEq

/-- The `run_tree` decorator's wrapper (run_helpers.py lines 31-87), on the
path where a parent run is passed: computes `name_` and `extra_inner`,
creates the child with the call's inputs, posts it, runs the wrapped
function (embedded as its outcome `f` — an exception, as its string form,
or a return value), and on exception ends the run with
`error=str(e)`, patches, and re-raises, while on success it ends the run
with `outputs={"output": function_result}`, patches, and returns the
function's result unchanged. -/
def run_tree_wrapper (runType : String) (name : Option String)
    (serialized : Option Dict) (decoratorExtra : Option Dict) (funcName : String)
    (runId : Option Nat) (callExtra : Option Dict) (inputs : Dict)
    (f : Except String PyVal) (s : Store) (pid : NodeId) (now : Nat) :
    Option (Except String PyVal × Store × List SubmitAction) :=
  let extraOuter := decoratorExtra.getD []
  let name_ := pyOrStr name funcName
  let extraInner := runTreeExtraInner extraOuter callExtra
  match RunTree.create_child s pid
      { name := name_, runType := runType, runId := runId, serialized := serialized,
        inputs := some inputs, extra := some extraInner } now with
  | none => none
  | some (s1, cid) =>
    match f with
    | .error e =>
      match RunTree.endRun s1 cid none (some e) none now with
      | none => none
      | some s2 => some (.error e, s2, [.postRun cid, .patchRun cid])
    | .ok v =>
      match RunTree.endRun s1 cid (some [("output", v)]) none none now with
      | none => none
      | some s2 => some (.ok v, s2, [.postRun cid, .patchRun cid])

theorem Store.get_set_self (s : Store) (i : NodeId) (n y : RunTreeNode)
    (h : s.get i = some y) : (s.set i n).get i = some n := by
  show alookup i (aset i n s.nodes) = some n
  rw [alookup_aset_self]
  show (s.get i).map (fun _ => n) = some n
  rw [h]
  rfl

theorem Store.get_set_ne (s : Store) (i j : NodeId) (n : RunTreeNode)
    (h : j ≠ i) : (s.set i n).get j = s.get j :=
  alookup_aset_ne i j n h s.nodes

theorem alookup_mem_keys {α β : Type} [DecidableEq α] (i : α) (b : β) :
    ∀ l : List (α × β), alookup i l = some b → i ∈ l.map Prod.fst := by
  intro l
  induction l with
  | nil => intro h; exact absurd h (by simp [alookup])
  | cons hd tl ih =>
    intro h
    by_cases hk : hd.1 = i
    · simp [hk]
    · rw [show alookup i (hd :: tl) = alookup i tl from by
        obtain ⟨k, v⟩ := hd; simp [alookup, hk]] at h
      simp [ih h]

theorem Store.get_fresh (s : Store) (j : NodeId) (hwf : s.WF)
    (h : s.nextId ≤ j) : s.get j = none := by
  cases hg : s.get j with
  | none => rfl
  | some b =>
    exfalso
    have hmem := alookup_mem_keys j b s.nodes hg
    have hlt : j < s.nextId := hwf j hmem
    exact absurd hlt (Nat.not_lt.mpr h)

/-- The store produced by a successful `create_child`: the fresh child object
plus the parent with the child appended to its `child_runs`. -/
def createdStore (s : Store) (pid : NodeId) (a : ChildArgs) (now : Nat)
    (p : RunTreeNode) : Store :=
  { nodes := (s.nextId, childNode p pid a s.nextId now)
      :: aset pid { p with childRuns := p.childRuns ++ [s.nextId] } s.nodes
    nextId := s.nextId + 1 }

theorem create_child_eq (s : Store) (pid : NodeId) (a : ChildArgs) (now : Nat)
    (p : RunTreeNode) (hp : s.get pid = some p) :
    RunTree.create_child s pid a now = some (createdStore s pid a now p, s.nextId) := by
  unfold RunTree.create_child
  rw [hp]
  rfl

theorem createdStore_get_child (s : Store) (pid : NodeId) (a : ChildArgs)
    (now : Nat) (p : RunTreeNode) :
    (createdStore s pid a now p).get s.nextId = some (childNode p pid a s.nextId now) := by
  show alookup _ _ = _
  simp [createdStore, alookup]

theorem createdStore_get_parent (s : Store) (pid : NodeId) (a : ChildArgs)
    (now : Nat) (p : RunTreeNode) (hp : s.get pid = some p)
    (hne : pid ≠ s.nextId) :
    (createdStore s pid a now p).get pid
      = some { p with childRuns := p.childRuns ++ [s.nextId] } := by
  show alookup _ _ = _
  have h1 : s.nextId ≠ pid := fun hc => hne hc.symm
  simp only [createdStore, alookup, if_neg h1]
  rw [alookup_aset_self]
  show (s.get pid).map _ = _
  rw [hp]
  rfl

theorem createdStore_get_other (s : Store) (pid : NodeId) (a : ChildArgs)
    (now : Nat) (p : RunTreeNode) (j : NodeId) (hj1 : j ≠ pid)
    (hj2 : j ≠ s.nextId) :
    (createdStore s pid a now p).get j = s.get j := by
  show alookup _ _ = _
  have h1 : s.nextId ≠ j := fun hc => hj2 hc.symm
  simp only [createdStore, alookup, if_neg h1]
  exact alookup_aset_ne pid j _ hj1 s.nodes

theorem createdStore_WF (s : Store) (pid : NodeId) (a : ChildArgs) (now : Nat)
    (p : RunTreeNode) (hwf : s.WF) : (createdStore s pid a now p).WF := by
  intro k hk
  show k < s.nextId + 1
  simp only [createdStore, List.map_cons, List.mem_cons, aset_keys] at hk
  rcases hk with hk | hk
  · rw [hk]
    exact Nat.lt_succ_self _
  · have hlt : k < s.nextId := hwf k hk
    exact Nat.lt_succ_of_lt hlt

theorem endRun_eq_parent (s : Store) (nid : NodeId) (outs : Option Dict)
    (err : Option String) (et : Option Nat) (now : Nat) (n : RunTreeNode)
    (pid : NodeId) (p : RunTreeNode) (hn : s.get nid = some n)
    (hpar : n.parentRun = some pid) (hne : pid ≠ nid) (hp : s.get pid = some p) :
    RunTree.endRun s nid outs err et now =
      some ((s.set nid (endedNode n outs err et now)).set pid
        { p with childExecutionOrder := max p.childExecutionOrder n.childExecutionOrder }) := by
  unfold RunTree.endRun
  rw [hn]
  have h1 : (s.set nid (endedNode n outs err et now)).get pid = some p := by
    rw [Store.get_set_ne s nid pid _ hne]
    exact hp
  simp only [hpar, h1]

theorem endRun_eq_root (s : Store) (nid : NodeId) (outs : Option Dict)
    (err : Option String) (et : Option Nat) (now : Nat) (n : RunTreeNode)
    (hn : s.get nid = some n) (hpar : n.parentRun = none) :
    RunTree.endRun s nid outs err et now =
      some (s.set nid (endedNode n outs err et now)) := by
  unfold RunTree.endRun
  rw [hn]
  simp only [hpar]

/-- The first defined of two optional values (Python-style fallthrough). -/
def firstSome {β : Type} (x y : Option β) : Option β :=
  match x with
  | some v => some v
  | none => y

/-- The parent update performed by `RunTree.end`: raise the parent's
high-water mark to the ending child's. -/
def bumpParent (p n : RunTreeNode) : RunTreeNode :=
  { p with childExecutionOrder := max p.childExecutionOrder n.childExecutionOrder }

theorem alookup_append {α β : Type} [DecidableEq α] (k : α) (xs ys : List (α × β)) :
    alookup k (xs ++ ys) = firstSome (alookup k xs) (alookup k ys) := by
  induction xs with
  | nil => simp [alookup, firstSome]
  | cons hd tl ih =>
    obtain ⟨k0, v0⟩ := hd
    by_cases h : k0 = k
    · simp [alookup, h, firstSome]
    · simp [alookup, h, ih]

theorem alookup_map_override (k : String) (b : Dict) :
    ∀ a : Dict,
      alookup k (a.map (overrideWith b))
        = (alookup k a).map (fun v => (alookup k b).getD v) := by
  intro a
  induction a with
  | nil => rfl
  | cons hd tl ih =>
    obtain ⟨k0, v0⟩ := hd
    by_cases h : k0 = k
    · subst h
      cases hb : alookup k0 b <;> simp [alookup, overrideWith, hb]
    · cases hb : alookup k0 b <;> simp [alookup, overrideWith, h, hb, ih]

theorem alookup_filter_kept (k : String) (a : Dict) :
    ∀ b : Dict,
      alookup k (b.filter (keptFromB a))
        = if (alookup k a).isNone then alookup k b else none := by
  intro b
  induction b with
  | nil => simp [alookup]
  | cons hd tl ih =>
    obtain ⟨k0, v0⟩ := hd
    by_cases h : k0 = k
    · subst h
      by_cases hf : (alookup k0 a).isNone
        <;> simp [alookup, List.filter_cons, keptFromB, hf, ih]
    · by_cases hf : (alookup k0 a).isNone
        <;> simp [alookup, List.filter_cons, keptFromB, hf, h, ih]

theorem alookup_pyDictMerge (a b : Dict) (k : String) :
    alookup k (pyDictMerge a b) = firstSome (alookup k b) (alookup k a) := by
  unfold pyDictMerge
  rw [alookup_append, alookup_map_override, alookup_filter_kept]
  cases ha : alookup k a <;> cases hb : alookup k b <;> simp [firstSome]

/-- Key-collision semantics of `extra_inner`: the call-level `extra` wins,
the decorator-level mapping fills in the rest. -/
theorem alookup_extraInner (outer : Dict) (call : Option Dict) (k : String) :
    alookup k (runTreeExtraInner outer call)
      = firstSome (alookup k (call.getD [])) (alookup k outer) := by
  cases call with
  | none => rfl
  | some e =>
    cases e with
    | nil => rfl
    | cons hd tl =>
      show alookup k (pyDictMerge outer (hd :: tl)) = _
      rw [alookup_pyDictMerge]
      rfl

/-- Inversion of a successful `create_child`: the parent was live and the
result is the canonical created store with the fresh key. -/
theorem create_child_inv (s : Store) (pid : NodeId) (a : ChildArgs) (now : Nat)
    (s' : Store) (cid : NodeId)
    (h : RunTree.create_child s pid a now = some (s', cid)) :
    ∃ p, s.get pid = some p ∧ s' = createdStore s pid a now p ∧ cid = s.nextId := by
  cases hq : s.get pid with
  | none =>
    exfalso
    unfold RunTree.create_child at h
    rw [hq] at h
    exact absurd h (by simp)
  | some p =>
    rw [create_child_eq s pid a now p hq] at h
    have h' := Option.some.inj h
    rw [Prod.ext_iff] at h'
    exact ⟨p, rfl, h'.1.symm, h'.2.symm⟩

/-- Inversion of a successful `end`: the receiver was live, its end fields
were assigned, and if its parent reference is live the parent's counter was
raised — nothing else. -/
theorem endRun_inv (s : Store) (nid : NodeId) (outs : Option Dict)
    (err : Option String) (et : Option Nat) (now : Nat) (s' : Store)
    (h : RunTree.endRun s nid outs err et now = some s') :
    ∃ n, s.get nid = some n ∧
      ((n.parentRun = none ∧ s' = s.set nid (endedNode n outs err et now)) ∨
       (∃ pid, n.parentRun = some pid ∧
         (((s.set nid (endedNode n outs err et now)).get pid = none ∧
             s' = s.set nid (endedNode n outs err et now)) ∨
          (∃ p, (s.set nid (endedNode n outs err et now)).get pid = some p ∧
             s' = (s.set nid (endedNode n outs err et now)).set pid (bumpParent p n))))) := by
  cases hn : s.get nid with
  | none =>
    exfalso
    unfold RunTree.endRun at h
    rw [hn] at h
    exact absurd h (by simp)
  | some n =>
    refine ⟨n, rfl, ?_⟩
    unfold RunTree.endRun at h
    rw [hn] at h
    dsimp only at h
    cases hpar : n.parentRun with
    | none =>
      rw [hpar] at h
      dsimp only at h
      exact Or.inl ⟨rfl, (Option.some.inj h).symm⟩
    | some pid =>
      rw [hpar] at h
      dsimp only at h
      refine Or.inr ⟨pid, rfl, ?_⟩
      cases hp : (s.set nid (endedNode n outs err et now)).get pid with
      | none =>
        rw [hp] at h
        dsimp only at h
        exact Or.inl ⟨rfl, (Option.some.inj h).symm⟩
      | some p =>
        rw [hp] at h
        dsimp only at h
        exact Or.inr ⟨p, rfl, (Option.some.inj h).symm⟩

/-- Overwriting a live key with a node that agrees on a projected field
leaves that projection of every key unchanged. -/
theorem get_set_map_eq {γ : Type} (f : RunTreeNode → γ) (t : Store) (i : NodeId)
    (y n : RunTreeNode) (hy : t.get i = some y) (hf : f n = f y) (j : NodeId) :
    ((t.set i n).get j).map f = ((t.get j).map f) := by
  by_cases hj : j = i
  · subst hj
    rw [Store.get_set_self t j n y hy, hy]
    simp [hf]
  · rw [Store.get_set_ne t i j n hj]

/-- `end` never changes any node's `execution_order`. -/
theorem endRun_preserves_executionOrder (s : Store) (nid : NodeId)
    (outs : Option Dict) (err : Option String) (et : Option Nat) (now : Nat)
    (s' : Store) (h : RunTree.endRun s nid outs err et now = some s') (j : NodeId) :
    (s'.get j).map RunTreeNode.executionOrder
      = (s.get j).map RunTreeNode.executionOrder := by
  obtain ⟨n, hn, hcase⟩ := endRun_inv s nid outs err et now s' h
  rcases hcase with ⟨-, rfl⟩ | ⟨pid, -, hcase2⟩
  · exact get_set_map_eq RunTreeNode.executionOrder s nid n
      (endedNode n outs err et now) hn rfl j
  · rcases hcase2 with ⟨-, rfl⟩ | ⟨p, hp, rfl⟩
    · exact get_set_map_eq RunTreeNode.executionOrder s nid n
        (endedNode n outs err et now) hn rfl j
    · rw [get_set_map_eq RunTreeNode.executionOrder _ pid p (bumpParent p n) hp rfl j]
      exact get_set_map_eq RunTreeNode.executionOrder s nid n
        (endedNode n outs err et now) hn rfl j

/-- `create_child` never changes the `execution_order` of a live node. -/
theorem create_child_preserves_executionOrder (t : Store) (qid : NodeId)
    (b : ChildArgs) (now2 : Nat) (t' : Store) (c : NodeId) (hwf : t.WF)
    (h : RunTree.create_child t qid b now2 = some (t', c)) (j : NodeId)
    (x : RunTreeNode) (hx : t.get j = some x) :
    (t'.get j).map RunTreeNode.executionOrder = some x.executionOrder := by
  obtain ⟨q, hq, rfl, -⟩ := create_child_inv t qid b now2 t' c h
  have hjfresh : j ≠ t.nextId := by
    intro hc
    rw [hc] at hx
    rw [Store.get_fresh t t.nextId hwf (Nat.le_refl _)] at hx
    exact absurd hx (by simp)
  by_cases hjq : j = qid
  · subst hjq
    rw [hx] at hq
    have hq' := Option.some.inj hq
    subst hq'
    rw [createdStore_get_parent t j b now2 x hx hjfresh]
    rfl
  · rw [createdStore_get_other t qid b now2 q j hjq hjfresh, hx]
    rfl

/-- The `ChildArgs` record the wrapper passes to `create_child`. -/
def wrapperChildArgs (runType : String) (name : Option String)
    (serialized : Option Dict) (decoratorExtra : Option Dict) (funcName : String)
    (runId : Option Nat) (callExtra : Option Dict) (inputs : Dict) : ChildArgs :=
  { name := pyOrStr name funcName, runType := runType, runId := runId,
    serialized := serialized, inputs := some inputs,
    extra := some (runTreeExtraInner (decoratorExtra.getD []) callExtra) }

/-- The `outputs` argument the wrapper passes to `end`: `{"output": result}`
on success, nothing on exception. -/
def wrapOuts (f : Except String PyVal) : Option Dict :=
  match f with
  | .ok v => some [("output", v)]
  | .error _ => none

/-- The `error` argument the wrapper passes to `end`: `str(e)` on exception,
nothing on success. -/
def wrapErr (f : Except String PyVal) : Option String :=
  match f with
  | .ok _ => none
  | .error e => some e

/-- Ending the fresh child right after `create_child`: the child is live, its
parent reference is the creating node, so `end` updates the child's end
fields and raises the parent's counter. -/
theorem endRun_createdStore (s : Store) (pid : NodeId) (a : ChildArgs)
    (now now2 : Nat) (p : RunTreeNode) (outs : Option Dict) (err : Option String)
    (et : Option Nat) (hp : s.get pid = some p) (hne : pid ≠ s.nextId) :
    RunTree.endRun (createdStore s pid a now p) s.nextId outs err et now2
      = some (((createdStore s pid a now p).set s.nextId
            (endedNode (childNode p pid a s.nextId now) outs err et now2)).set pid
          (bumpParent { p with childRuns := p.childRuns ++ [s.nextId] }
            (childNode p pid a s.nextId now))) := by
  have h1 := createdStore_get_child s pid a now p
  have h2 := createdStore_get_parent s pid a now p hp hne
  have h3 := endRun_eq_parent (createdStore s pid a now p) s.nextId outs err et now2
    (childNode p pid a s.nextId now) pid
    { p with childRuns := p.childRuns ++ [s.nextId] } h1 rfl hne h2
  exact h3

/-- The store the wrapper leaves behind: the created child with its end
fields assigned, and the parent with the child appended and its counter
raised. -/
def wrapperResultStore (runType : String) (name : Option String)
    (serialized : Option Dict) (decoratorExtra : Option Dict) (funcName : String)
    (runId : Option Nat) (callExtra : Option Dict) (inputs : Dict)
    (f : Except String PyVal) (s : Store) (pid : NodeId) (now : Nat)
    (p : RunTreeNode) : Store :=
  ((createdStore s pid
        (wrapperChildArgs runType name serialized decoratorExtra funcName runId callExtra inputs)
        now p).set s.nextId
      (endedNode
        (childNode p pid
          (wrapperChildArgs runType name serialized decoratorExtra funcName runId callExtra inputs)
          s.nextId now)
        (wrapOuts f) (wrapErr f) none now)).set pid
    (bumpParent { p with childRuns := p.childRuns ++ [s.nextId] }
      (childNode p pid
        (wrapperChildArgs runType name serialized decoratorExtra funcName runId callExtra inputs)
        s.nextId now))

/-- Evaluation of the wrapper on a live parent: it returns the wrapped
function's own outcome unchanged, the updated store, and one `post`
followed by one `patch` of the child. -/
theorem run_tree_wrapper_eq (runType : String) (name : Option String)
    (serialized : Option Dict) (decoratorExtra : Option Dict) (funcName : String)
    (runId : Option Nat) (callExtra : Option Dict) (inputs : Dict)
    (f : Except String PyVal) (s : Store) (pid : NodeId) (now : Nat)
    (p : RunTreeNode) (hp : s.get pid = some p) (hne : pid ≠ s.nextId) :
    run_tree_wrapper runType name serialized decoratorExtra funcName runId callExtra
        inputs f s pid now
      = some (f,
          wrapperResultStore runType name serialized decoratorExtra funcName runId
            callExtra inputs f s pid now p,
          [SubmitAction.postRun s.nextId, SubmitAction.patchRun s.nextId]) := by
  unfold run_tree_wrapper
  dsimp only
  rw [create_child_eq s pid _ now p hp]
  dsimp only
  cases f with
  | error e =>
    dsimp only
    rw [endRun_createdStore s pid _ now now p none (some e) none hp hne]
    rfl
  | ok v =>
    dsimp only
    rw [endRun_createdStore s pid _ now now p (some [("output", v)]) none none hp hne]
    rfl

/-- The child node as the wrapper leaves it. -/
theorem wrapperResultStore_get_child (runType : String) (name : Option String)
    (serialized : Option Dict) (decoratorExtra : Option Dict) (funcName : String)
    (runId : Option Nat) (callExtra : Option Dict) (inputs : Dict)
    (f : Except String PyVal) (s : Store) (pid : NodeId) (now : Nat)
    (p : RunTreeNode) (hne : pid ≠ s.nextId) :
    (wrapperResultStore runType name serialized decoratorExtra funcName runId callExtra
        inputs f s pid now p).get s.nextId
      = some (endedNode
          (childNode p pid
            (wrapperChildArgs runType name serialized decoratorExtra funcName runId callExtra inputs)
            s.nextId now)
          (wrapOuts f) (wrapErr f) none now) := by
  unfold wrapperResultStore
  have hns : s.nextId ≠ pid := fun hc => hne hc.symm
  rw [Store.get_set_ne _ pid s.nextId _ hns]
  exact Store.get_set_self _ s.nextId _ _ (createdStore_get_child s pid _ now p)

/-- A live root whose `child_execution_order` is 3 (the spec's worked
example for child creation). -/
def exParent3 : RunTreeNode :=
  { name := "parent", id := 10, childExecutionOrder := 3 }

/-- A one-node heap holding `exParent3` at key 0. -/
def exStore3 : Store := { nodes := [(0, exParent3)], nextId := 1 }

/-- Keyword arguments for a first example child. -/
def exArgsA : ChildArgs := { name := "childA", runType := "tool" }

/-- Keyword arguments for a second example child. -/
def exArgsB : ChildArgs := { name := "childB", runType := "tool" }

/-- The heap after creating `exArgsA`'s child under `exParent3`. -/
def exS1 : Store := createdStore exStore3 0 exArgsA 5 exParent3

/-- `exParent3` after the first child was appended. -/
def exP1 : RunTreeNode := { exParent3 with childRuns := exParent3.childRuns ++ [1] }

/-- The heap after creating a second child with no `end` call in between. -/
def exS2 : Store := createdStore exS1 0 exArgsB 6 exP1

/-- Claim C1: `RunTree.create_child` assigns the new child an
`execution_order` equal to the parent's `child_execution_order + 1`, and
the assignment happens exactly once, at creation: neither `end` nor a
later `create_child` ever changes the `execution_order` of a live node.
(In particular a parent with `child_execution_order = 3` yields a child
with `execution_order = 4`; see the witness.) -/
theorem claimC1_child_execution_order (s : Store) (pid : NodeId) (a : ChildArgs)
    (now : Nat) (p : RunTreeNode) (s' : Store) (cid : NodeId)
    (hp : s.get pid = some p)
    (hc : RunTree.create_child s pid a now = some (s', cid)) :
    ((s'.get cid).map RunTreeNode.executionOrder = some (p.childExecutionOrder + 1))
    ∧ (∀ t nid outs err et m t', RunTree.endRun t nid outs err et m = some t' →
        ∀ j, (t'.get j).map RunTreeNode.executionOrder
          = (t.get j).map RunTreeNode.executionOrder)
    ∧ (∀ t : Store, ∀ qid b m t' c, t.WF →
        RunTree.create_child t qid b m = some (t', c) →
        ∀ j x, t.get j = some x →
          (t'.get j).map RunTreeNode.executionOrder = some x.executionOrder) := by
  refine ⟨?_, ?_, ?_⟩
  · obtain ⟨p', hp', hs', hcid⟩ := create_child_inv s pid a now s' cid hc
    rw [hp] at hp'
    have hpp := Option.some.inj hp'
    subst hpp
    subst hs'
    subst hcid
    rw [createdStore_get_child]
    rfl
  · intro t nid outs err et m t' h j
    exact endRun_preserves_executionOrder t nid outs err et m t' h j
  · intro t qid b m t' c hwf h j x hx
    exact create_child_preserves_executionOrder t qid b m t' c hwf h j x hx

/-- Witness for C1: creating a child under `exParent3`, whose
`child_execution_order` is 3, yields a child with `execution_order = 4`. -/
theorem claimC1_witness :
    ((createdStore exStore3 0 exArgsA 5 exParent3).get 1).map RunTreeNode.executionOrder
      = some 4 :=
  (claimC1_child_execution_order exStore3 0 exArgsA 5 exParent3
    (createdStore exStore3 0 exArgsA 5 exParent3) 1 rfl rfl).1

/-- Claim C10: `create_child` reads but never updates the parent's
`child_execution_order`, so two consecutive `create_child` calls on the
same parent with no intervening `end` assign both children the same
`execution_order`; if instead the first child is ended before the second
is created, the second child's `execution_order` is one higher. -/
theorem claimC10_sibling_execution_order (s : Store) (pid : NodeId)
    (a b : ChildArgs) (now1 now2 : Nat) (p : RunTreeNode)
    (s1 : Store) (c1 : NodeId) (s2 : Store) (c2 : NodeId)
    (hwf : s.WF) (hp : s.get pid = some p)
    (h1 : RunTree.create_child s pid a now1 = some (s1, c1))
    (h2 : RunTree.create_child s1 pid b now2 = some (s2, c2)) :
    ((s2.get c1).map RunTreeNode.executionOrder = some (p.childExecutionOrder + 1)
     ∧ (s2.get c2).map RunTreeNode.executionOrder = some (p.childExecutionOrder + 1)
     ∧ (s1.get pid).map RunTreeNode.childExecutionOrder = some p.childExecutionOrder)
    ∧ (∀ outs err et m now3 s1' s2' c2',
        RunTree.endRun s1 c1 outs err et m = some s1' →
        RunTree.create_child s1' pid b now3 = some (s2', c2') →
        (s2'.get c2').map RunTreeNode.executionOrder = some (p.childExecutionOrder + 2)
        ∧ (s2'.get c1).map RunTreeNode.executionOrder
            = some (p.childExecutionOrder + 1)) := by
  have hpidlt : pid < s.nextId := hwf pid (alookup_mem_keys pid p s.nodes hp)
  have hpidne : pid ≠ s.nextId := Nat.ne_of_lt hpidlt
  obtain ⟨p', hp', hs1, hc1⟩ := create_child_inv s pid a now1 s1 c1 h1
  rw [hp] at hp'
  have hpp := Option.some.inj hp'
  subst hpp
  subst hs1
  subst hc1
  have hget1 := createdStore_get_parent s pid a now1 p hp hpidne
  obtain ⟨q, hq, hs2, hc2⟩ := create_child_inv _ pid b now2 s2 c2 h2
  rw [hget1] at hq
  have hqq := Option.some.inj hq
  subst hqq
  subst hs2
  subst hc2
  have hnext1 : (createdStore s pid a now1 p).nextId = s.nextId + 1 := rfl
  have hc1ne : s.nextId ≠ (createdStore s pid a now1 p).nextId := by
    rw [hnext1]
    exact Nat.ne_of_lt (Nat.lt_succ_self _)
  have hc1nepid : s.nextId ≠ pid := fun hcq => hpidne hcq.symm
  constructor
  · refine ⟨?_, ?_, ?_⟩
    · rw [createdStore_get_other _ pid b now2 _ s.nextId hc1nepid hc1ne]
      rw [createdStore_get_child]
      rfl
    · rw [createdStore_get_child]
      rfl
    · rw [hget1]
      rfl
  · intro outs err et m now3 s1' s2' c2' he h3
    have hend := endRun_createdStore s pid a now1 m p outs err et hp hpidne
    rw [show RunTree.endRun (createdStore s pid a now1 p) s.nextId outs err et m
        = RunTree.endRun (createdStore s pid a now1 p) s.nextId outs err et m from rfl] at he
    rw [hend] at he
    have hs1' := (Option.some.inj he).symm
    subst hs1'
    have hbump :
        (((createdStore s pid a now1 p).set s.nextId
            (endedNode (childNode p pid a s.nextId now1) outs err et m)).set pid
          (bumpParent { p with childRuns := p.childRuns ++ [s.nextId] }
            (childNode p pid a s.nextId now1))).get pid
        = some (bumpParent { p with childRuns := p.childRuns ++ [s.nextId] }
            (childNode p pid a s.nextId now1)) := by
      apply Store.get_set_self
      rw [Store.get_set_ne _ s.nextId pid _ hpidne]
      exact hget1
    obtain ⟨r, hr, hs2', hc2'⟩ := create_child_inv _ pid b now3 s2' c2' h3
    rw [hbump] at hr
    have hrr := Option.some.inj hr
    subst hrr
    subst hs2'
    subst hc2'
    have hmax : max p.childExecutionOrder (p.childExecutionOrder + 1)
        = p.childExecutionOrder + 1 := Nat.max_eq_right (Nat.le_succ _)
    constructor
    · rw [createdStore_get_child]
      show some (max p.childExecutionOrder (p.childExecutionOrder + 1) + 1) = _
      rw [hmax]
    · have hnid2 : s.nextId
          ≠ (((createdStore s pid a now1 p).set s.nextId
                (endedNode (childNode p pid a s.nextId now1) outs err et m)).set pid
              (bumpParent { p with childRuns := p.childRuns ++ [s.nextId] }
                (childNode p pid a s.nextId now1))).nextId := by
        show s.nextId ≠ s.nextId + 1
        exact Nat.ne_of_lt (Nat.lt_succ_self _)
      rw [createdStore_get_other _ pid b now3 _ s.nextId hc1nepid hnid2]
      rw [Store.get_set_ne _ pid s.nextId _ hc1nepid]
      rw [Store.get_set_self _ s.nextId _ (childNode p pid a s.nextId now1)
        (createdStore_get_child s pid a now1 p)]
      rfl

/-- The example heap is well formed. -/
theorem exStore3_WF : exStore3.WF := by
  intro k hk
  simp [exStore3] at hk
  subst hk
  decide

/-- Witness for C10: under `exParent3` (counter 3) two back-to-back children
both get `execution_order = 4`. -/
theorem claimC10_witness :
    (exS2.get 1).map RunTreeNode.executionOrder = some 4
    ∧ (exS2.get 2).map RunTreeNode.executionOrder = some 4 := by
  have h := claimC10_sibling_execution_order exStore3 0 exArgsA exArgsB 5 6 exParent3
    exS1 1 exS2 2 exStore3_WF rfl rfl rfl
  exact ⟨h.1.1, h.1.2.1⟩

/-- A live root whose `child_execution_order` is 4 (the spec's worked
example for `end`-time propagation), with one child at key 1. -/
def exRoot4 : RunTreeNode :=
  { name := "parent", id := 20, childExecutionOrder := 4, childRuns := [1] }

/-- A child of `exRoot4` whose `child_execution_order` is 5 and which
already carries outputs. -/
def exChild5 : RunTreeNode :=
  { name := "child", id := 21, parentRun := some 0, executionOrder := 5,
    childExecutionOrder := 5, outputs := some [("k", PyVal.vstr "v")] }

/-- The two-node heap for the `end` examples. -/
def exStore45 : Store := { nodes := [(0, exRoot4), (1, exChild5)], nextId := 2 }

/-- Claim C2: on a node with a live parent, `end` sets the node's `end_time`
to the passed value or the current time, assigns `outputs` and `error`
only when those arguments are provided, raises the parent's
`child_execution_order` to the max of the two counters, and touches no
other node — in particular a grandparent's counter is unchanged. -/
theorem claimC2_end_one_level (s : Store) (nid pid : NodeId) (n p : RunTreeNode)
    (outs : Option Dict) (err : Option String) (et : Option Nat) (now : Nat)
    (hn : s.get nid = some n) (hpar : n.parentRun = some pid)
    (hne : pid ≠ nid) (hp : s.get pid = some p) :
    ∃ s2, RunTree.endRun s nid outs err et now = some s2
      ∧ s2.get nid = some { n with
          endTime := some (et.getD now),
          outputs := firstSome outs n.outputs,
          error := firstSome err n.error }
      ∧ s2.get pid = some { p with
          childExecutionOrder := max p.childExecutionOrder n.childExecutionOrder }
      ∧ (∀ j, j ≠ nid → j ≠ pid → s2.get j = s.get j)
      ∧ (∀ gid, p.parentRun = some gid → gid ≠ nid → gid ≠ pid →
          (s2.get gid).map RunTreeNode.childExecutionOrder
            = (s.get gid).map RunTreeNode.childExecutionOrder) := by
  have hnp : nid ≠ pid := fun hc => hne hc.symm
  have heq := endRun_eq_parent s nid outs err et now n pid p hn hpar hne hp
  refine ⟨_, heq, ?_, ?_, ?_, ?_⟩
  · rw [Store.get_set_ne _ pid nid _ hnp]
    rw [Store.get_set_self s nid _ n hn]
    cases outs <;> cases err <;> rfl
  · have h1 : (s.set nid (endedNode n outs err et now)).get pid = some p := by
      rw [Store.get_set_ne s nid pid _ hne]
      exact hp
    rw [Store.get_set_self _ pid _ p h1]
  · intro j hj1 hj2
    rw [Store.get_set_ne _ pid j _ hj2, Store.get_set_ne s nid j _ hj1]
  · intro gid hg hg1 hg2
    rw [Store.get_set_ne _ pid gid _ hg2, Store.get_set_ne s nid gid _ hg1]

/-- Witness for C2: ending the child with counter 5 raises the parent's
counter from 4 to 5. -/
theorem claimC2_witness :
    (RunTree.endRun exStore45 1 none none none 9).map
        (fun t => (t.get 0).map RunTreeNode.childExecutionOrder)
      = some (some 5) := by
  obtain ⟨s2, he, hnid, hpid, hframe, hgp⟩ :=
    claimC2_end_one_level exStore45 1 0 exChild5 exRoot4 none none none 9
      rfl rfl (by decide) rfl
  rw [he]
  show some ((s2.get 0).map RunTreeNode.childExecutionOrder) = some (some 5)
  rw [hpid]
  rfl

/-- Counterexample to C6 as stated: node 1 has pre-existing outputs and is
ended with only an error, yet node 0 — a different node (its parent) — is
not left unchanged: its `child_execution_order` moves from 4 to 5. -/
theorem claimC6_counterexample :
    ((RunTree.endRun exStore45 1 none (some "boom") none 9).map
        (fun t => (t.get 0).map RunTreeNode.childExecutionOrder) = some (some 5))
    ∧ (exStore45.get 0).map RunTreeNode.childExecutionOrder = some 4
    ∧ (exStore45.get 1).map RunTreeNode.outputs
        = some (some [("k", PyVal.vstr "v")])
    ∧ (5 : Nat) ≠ 4 := by
  refine ⟨rfl, rfl, rfl, by decide⟩

/-- Claim C6 as amended: ending a node that has a live parent with only an
error leaves the node's `outputs` untouched and modifies only its
`end_time` and `error`; every node other than the ended node and its
parent is unchanged, and the parent changes only by having its
`child_execution_order` raised to the max of the two counters. -/
theorem claimC6_amended_error_frame (s : Store) (nid pid : NodeId)
    (n p : RunTreeNode) (e : String) (et : Option Nat) (now : Nat)
    (hn : s.get nid = some n) (hpar : n.parentRun = some pid)
    (hne : pid ≠ nid) (hp : s.get pid = some p) :
    ∃ s2, RunTree.endRun s nid none (some e) et now = some s2
      ∧ s2.get nid = some { n with endTime := some (et.getD now), error := some e }
      ∧ s2.get pid = some { p with
          childExecutionOrder := max p.childExecutionOrder n.childExecutionOrder }
      ∧ (∀ j, j ≠ nid → j ≠ pid → s2.get j = s.get j) := by
  have hnp : nid ≠ pid := fun hc => hne hc.symm
  have heq := endRun_eq_parent s nid none (some e) et now n pid p hn hpar hne hp
  refine ⟨_, heq, ?_, ?_, ?_⟩
  · rw [Store.get_set_ne _ pid nid _ hnp]
    rw [Store.get_set_self s nid _ n hn]
    rfl
  · have h1 : (s.set nid (endedNode n none (some e) et now)).get pid = some p := by
      rw [Store.get_set_ne s nid pid _ hne]
      exact hp
    rw [Store.get_set_self _ pid _ p h1]
  · intro j hj1 hj2
    rw [Store.get_set_ne _ pid j _ hj2, Store.get_set_ne s nid j _ hj1]

/-- Witness for the amended C6: ending the child with only an error leaves
its pre-existing outputs in place. -/
theorem claimC6_witness :
    (RunTree.endRun exStore45 1 none (some "err2") (some 7) 9).map
        (fun t => (t.get 1).map RunTreeNode.outputs)
      = some (some (some [("k", PyVal.vstr "v")])) := by
  obtain ⟨s2, he, hnid, -, -⟩ :=
    claimC6_amended_error_frame exStore45 1 0 exChild5 exRoot4 "err2" (some 7) 9
      rfl rfl (by decide) rfl
  rw [he]
  show some ((s2.get 1).map RunTreeNode.outputs) = _
  rw [hnid]
  rfl

/-- Keyword arguments that pass no `end_time` (and no other optionals). -/
def exArgsC3 : ChildArgs := { name := "c", runType := "tool" }

/-- Counterexample to C3 as stated: a child created by `create_child` with
no `end_time` argument already carries `end_time = now` (here 7) the
moment it is created, before any `end` call. -/
theorem claimC3_counterexample :
    ((RunTree.create_child exStore3 0 exArgsC3 7).map
        (fun r => (r.1.get r.2).map RunTreeNode.endTime) = some (some (some 7)))
    ∧ exArgsC3.endTime = none
    ∧ (some (7 : Nat) : Option Nat) ≠ none := by
  refine ⟨rfl, rfl, by decide⟩

/-- Claim C3 as amended: a node created by `create_child` has `end_time` set
already at creation, to the passed `end_time` or the creation-time clock
(`end_time or utcnow()`); the `end` operation then overwrites `end_time`
with the passed value or the clock at the time of the call. -/
theorem claimC3_amended_end_time (s : Store) (pid : NodeId) (a : ChildArgs)
    (now : Nat) (p : RunTreeNode) (s' : Store) (cid : NodeId)
    (hp : s.get pid = some p)
    (hc : RunTree.create_child s pid a now = some (s', cid)) :
    ((s'.get cid).map RunTreeNode.endTime = some (some (a.endTime.getD now)))
    ∧ (∀ t nid outs err et m t' n, t.get nid = some n →
        RunTree.endRun t nid outs err et m = some t' →
        (t'.get nid).map RunTreeNode.endTime = some (some (et.getD m))) := by
  constructor
  · obtain ⟨p', hp', hs', hcid⟩ := create_child_inv s pid a now s' cid hc
    rw [hp] at hp'
    have hpp := Option.some.inj hp'
    subst hpp
    subst hs'
    subst hcid
    rw [createdStore_get_child]
    rfl
  · intro t nid outs err et m t' n hn2 h2
    obtain ⟨n', hn', hcase⟩ := endRun_inv t nid outs err et m t' h2
    rcases hcase with ⟨-, rfl⟩ | ⟨pid2, -, hcase2⟩
    · rw [Store.get_set_self t nid _ n' hn']
      rfl
    · rcases hcase2 with ⟨-, rfl⟩ | ⟨p2, hp2, rfl⟩
      · rw [Store.get_set_self t nid _ n' hn']
        rfl
      · rw [get_set_map_eq RunTreeNode.endTime _ pid2 p2 (bumpParent p2 n') hp2 rfl nid]
        rw [Store.get_set_self t nid _ n' hn']
        rfl

/-- Witness for the amended C3: a child created at clock 7 with no
`end_time` argument carries `end_time = 7` from creation. -/
theorem claimC3_witness :
    ((createdStore exStore3 0 exArgsC3 7 exParent3).get 1).map RunTreeNode.endTime
      = some (some 7) :=
  (claimC3_amended_end_time exStore3 0 exArgsC3 7 exParent3
    (createdStore exStore3 0 exArgsC3 7 exParent3) 1 rfl rfl).1

/-- Tasks queued on the current executor, if any. -/
def pendingCount (g : GlobalState) : Nat :=
  match g.pool with
  | none => 0
  | some p => p.pending

/-- When the global executor slot is empty, `post` lazily creates a fresh
(non-shut-down) single worker and submits to it successfully. -/
theorem post_pool_none (g0 : GlobalState) (h : g0.pool = none) :
    RunTree.post g0
      = .ok { pool := some { isShutdown := false, pending := 1 },
              createdCount := g0.createdCount + 1,
              completedTotal := g0.completedTotal } := by
  unfold RunTree.post _ensure_thread_pool poolSubmit
  rw [h]
  rfl

/-- When the global executor slot is empty, `patch` lazily creates a fresh
(non-shut-down) single worker and submits to it successfully. -/
theorem patch_pool_none (g0 : GlobalState) (h : g0.pool = none) :
    RunTree.patch g0
      = .ok { pool := some { isShutdown := false, pending := 1 },
              createdCount := g0.createdCount + 1,
              completedTotal := g0.completedTotal } := by
  unfold RunTree.patch _ensure_thread_pool poolSubmit
  rw [h]
  rfl

/-- Claim C5: `await_all_runs` runs every pending submission to completion
(the drained tasks land in the ghost `completedTotal`), shuts the worker
down and clears the process-wide singleton; a subsequent `post` or
`patch` then re-creates a fresh worker and succeeds — it does not raise
the executor's after-shutdown error. -/
theorem claimC5_await_all_reset (g : GlobalState) :
    (await_all_runs g).pool = none
    ∧ (await_all_runs g).createdCount = g.createdCount
    ∧ (await_all_runs g).completedTotal = g.completedTotal + pendingCount g
    ∧ RunTree.post (await_all_runs g)
        = .ok { pool := some { isShutdown := false, pending := 1 },
                createdCount := g.createdCount + 1,
                completedTotal := (await_all_runs g).completedTotal }
    ∧ RunTree.patch (await_all_runs g)
        = .ok { pool := some { isShutdown := false, pending := 1 },
                createdCount := g.createdCount + 1,
                completedTotal := (await_all_runs g).completedTotal } := by
  cases hp : g.pool with
  | none =>
    have ha : await_all_runs g = g := by
      unfold await_all_runs
      rw [hp]
    rw [ha]
    refine ⟨hp, rfl, ?_, post_pool_none g hp, patch_pool_none g hp⟩
    simp [pendingCount, hp]
  | some p =>
    have ha : await_all_runs g
        = { pool := none, createdCount := g.createdCount,
            completedTotal := g.completedTotal + p.pending } := by
      unfold await_all_runs
      rw [hp]
    rw [ha]
    refine ⟨rfl, rfl, ?_, ?_, ?_⟩
    · show g.completedTotal + p.pending = g.completedTotal + pendingCount g
      simp [pendingCount, hp]
    · exact post_pool_none _ rfl
    · exact patch_pool_none _ rfl

/-- Counterexample to C4 as stated: `_ensure_thread_pool` holds no lock
between its `is None` test and the assignment, so the interleaving
read-read-create-create of two first callers constructs two executors;
"at most one worker is ever created under concurrent first use" is false. -/
theorem claimC4_counterexample :
    (runRace {} [false, true, false, true]).globalState.createdCount = 2
    ∧ ¬ (∀ sched : List Bool,
          (runRace {} sched).globalState.createdCount ≤ 1) := by
  refine ⟨rfl, ?_⟩
  intro hall
  exact absurd (hall [false, true, false, true]) (by decide)

/-- Claim C4 as amended: the singleton-initialization path is not guarded by
any mutual-exclusion lock. When the two first callers run without
interleaving (either order), exactly one worker is created; but under
concurrent first use an interleaving exists (both threads read the empty
slot before either writes) that creates two workers. -/
theorem claimC4_amended_unguarded_init :
    (runRace {} [false, false, true, true]).globalState.createdCount = 1
    ∧ (runRace {} [true, true, false, false]).globalState.createdCount = 1
    ∧ (runRace {} [false, true, false, true]).globalState.createdCount = 2 :=
  ⟨rfl, rfl, rfl⟩

/-- Claim C7: the `run_tree` wrapper is transparent to control flow — it
returns the wrapped function's outcome unchanged (same exception
re-raised, same value returned), after recording, on the exception path,
the exception's string form as the run's `error` (ending the run, then
patching it: the `post` and `patch` submissions are both dispatched). -/
theorem claimC7_wrapper_transparency (rt : String) (nm : Option String)
    (ser dExtra : Option Dict) (fn : String) (runId : Option Nat)
    (cExtra : Option Dict) (inputs : Dict) (f : Except String PyVal)
    (s : Store) (pid : NodeId) (now : Nat) (p : RunTreeNode)
    (hwf : s.WF) (hp : s.get pid = some p) :
    ∃ s2, run_tree_wrapper rt nm ser dExtra fn runId cExtra inputs f s pid now
        = some (f, s2, [SubmitAction.postRun s.nextId, SubmitAction.patchRun s.nextId])
      ∧ (∀ e, f = .error e →
          (s2.get s.nextId).map RunTreeNode.error = some (some e)
          ∧ (s2.get s.nextId).map RunTreeNode.endTime = some (some now))
      ∧ (∀ v, f = .ok v →
          (s2.get s.nextId).map RunTreeNode.outputs
            = some (some [("output", v)])) := by
  have hne : pid ≠ s.nextId :=
    Nat.ne_of_lt (hwf pid (alookup_mem_keys pid p s.nodes hp))
  refine ⟨_, run_tree_wrapper_eq rt nm ser dExtra fn runId cExtra inputs f s pid now
    p hp hne, ?_, ?_⟩
  · intro e hf
    subst hf
    rw [wrapperResultStore_get_child rt nm ser dExtra fn runId cExtra inputs
      (Except.error e) s pid now p hne]
    exact ⟨rfl, rfl⟩
  · intro v hf
    subst hf
    rw [wrapperResultStore_get_child rt nm ser dExtra fn runId cExtra inputs
      (Except.ok v) s pid now p hne]
    rfl

/-- Witness for C7: a traced call that raises "boom" comes back as the same
exception, with "boom" recorded as the run's error. -/
theorem claimC7_witness :
    ((run_tree_wrapper "tool" none none none "fn" none none []
        (Except.error "boom") exStore3 0 9).map (fun r => r.1)
      = some (Except.error "boom"))
    ∧ ((run_tree_wrapper "tool" none none none "fn" none none []
        (Except.error "boom") exStore3 0 9).map
          (fun r => (r.2.1.get 1).map RunTreeNode.error)
      = some (some (some "boom"))) := by
  obtain ⟨s2, heq, herr, -⟩ := claimC7_wrapper_transparency "tool" none none none
    "fn" none none [] (Except.error "boom") exStore3 0 9 exParent3 exStore3_WF rfl
  constructor
  · rw [heq]
    rfl
  · rw [heq]
    show some ((s2.get exStore3.nextId).map RunTreeNode.error)
      = some (some (some "boom"))
    obtain ⟨h1, -⟩ := herr "boom" rfl
    rw [h1]

/-- Claim C8: a run's `extra` mapping is the merge of the decorator-level
and call-level `extra` mappings, with the call-level value winning on
every key collision: for every key, the stored child's `extra` answers
with the call-level binding when present, otherwise the decorator-level
one. -/
theorem claimC8_extra_merge (rt : String) (nm : Option String)
    (ser dExtra : Option Dict) (fn : String) (runId : Option Nat)
    (cExtra : Option Dict) (inputs : Dict) (f : Except String PyVal)
    (s : Store) (pid : NodeId) (now : Nat) (p : RunTreeNode)
    (hwf : s.WF) (hp : s.get pid = some p) :
    (∀ k, alookup k (runTreeExtraInner (dExtra.getD []) cExtra)
        = firstSome (alookup k (cExtra.getD [])) (alookup k (dExtra.getD [])))
    ∧ (∃ s2, run_tree_wrapper rt nm ser dExtra fn runId cExtra inputs f s pid now
          = some (f, s2, [SubmitAction.postRun s.nextId, SubmitAction.patchRun s.nextId])
        ∧ (s2.get s.nextId).map RunTreeNode.extra
            = some (runTreeExtraInner (dExtra.getD []) cExtra)) := by
  have hne : pid ≠ s.nextId :=
    Nat.ne_of_lt (hwf pid (alookup_mem_keys pid p s.nodes hp))
  refine ⟨fun k => alookup_extraInner (dExtra.getD []) cExtra k,
    _, run_tree_wrapper_eq rt nm ser dExtra fn runId cExtra inputs f s pid now
      p hp hne, ?_⟩
  rw [wrapperResultStore_get_child rt nm ser dExtra fn runId cExtra inputs
    f s pid now p hne]
  rfl

/-- Decorator-level example `extra`. -/
def exDExtra : Dict := [("a", PyVal.vnum 1), ("b", PyVal.vnum 2)]

/-- Call-level example `extra`, colliding with the decorator's on "b". -/
def exCExtra : Dict := [("b", PyVal.vnum 3), ("c", PyVal.vnum 4)]

/-- Witness for C8: on the collision key "b" the call-level value 3 wins;
the decorator-only key "a" keeps its value 1. -/
theorem claimC8_witness :
    alookup "b" (runTreeExtraInner exDExtra (some exCExtra)) = some (PyVal.vnum 3)
    ∧ alookup "a" (runTreeExtraInner exDExtra (some exCExtra))
        = some (PyVal.vnum 1) := by
  have h := claimC8_extra_merge "tool" none none (some exDExtra) "fn" none
    (some exCExtra) [] (Except.ok PyVal.vnull) exStore3 0 9 exParent3
    exStore3_WF rfl
  constructor
  · show alookup "b" (runTreeExtraInner ((some exDExtra).getD []) (some exCExtra))
      = some (PyVal.vnum 3)
    rw [h.1 "b"]
    rfl
  · show alookup "a" (runTreeExtraInner ((some exDExtra).getD []) (some exCExtra))
      = some (PyVal.vnum 1)
    rw [h.1 "a"]
    rfl

/-- Claim C9: the generic serializer converts every named-tuple-like value
to the ordered sequence of its converted field values — not a mapping,
the field names are discarded; in particular `(foo="a", bar=1)` becomes
`["a", 1]`. -/
theorem claimC9_namedtuple_sequence :
    (∀ fields, _serialize_json (PyVal.vnamedtuple fields)
        = Json.arr (fields.map (fun q => _serialize_json q.2)))
    ∧ _serialize_json
        (PyVal.vnamedtuple [("foo", PyVal.vstr "a"), ("bar", PyVal.vnum 1)])
      = Json.arr [Json.str "a", Json.num 1] := by
  constructor
  · intro fields
    show Json.arr (serializeFieldValues fields) = _
    congr 1
    induction fields with
    | nil => rfl
    | cons hd tl ih =>
      obtain ⟨k, v⟩ := hd
      simp [serializeFieldValues, ih]
  · rfl
